import Mathlib

/-!
# ChefBot inventory client and suggestion service: a shallow embedding

This file embeds the ingredient-inventory client of the ChefBot web
application (src/frontend/src/App.tsx) and the recipe-suggestion
contract, and proves the specified properties about them.

Each React event handler is modelled as a pure function from the
component state, the handler's arguments, and the outcome of the
single network request it may issue, to the new component state
together with the list of requests it issued during the call.
JavaScript numbers are modelled as exact rationals; the quantity
arithmetic performed by the client (adding or subtracting 1, clamping
at 0.1) is exact in both models at every value the claims mention.
-/

namespace ChefBot

/-- An ingredient record as held in the local view
(interface Ingredient in src/frontend/src/App.tsx). -/
structure Ingredient where
  id : Nat
  name : String
  quantity : Rat
  unit : String
  created_at : String
  updated_at : String
  deriving Repr, DecidableEq

/-- The pending new-ingredient form fields
(interface NewIngredient in src/frontend/src/App.tsx). -/
structure NewIngredient where
  name : String
  quantity : Rat
  unit : String
  deriving Repr, DecidableEq

/-- A recipe suggestion as rendered by the client
(interface Recipe in src/frontend/src/App.tsx). -/
structure Recipe where
  recipe_name : String
  ingredients_required : List String
  missing_ingredients : List String
  instructions : List String
  difficulty_level : String
  cooking_time : String
  servings : Nat
  deriving Repr, DecidableEq

/-- Body of a PUT update request: the client sends either a quantity
field or a unit field, never both. -/
inductive UpdateBody where
  | quantity (q : Rat)
  | unit (u : String)
  deriving Repr, DecidableEq

/-- A network request issued by one of the handlers. -/
inductive Request where
  | getIngredients
  | putIngredient (id : Nat) (body : UpdateBody)
  | deleteIngredient (id : Nat)
  | postIngredient (body : NewIngredient)
  | postSuggest (servings : Nat)
  deriving Repr, DecidableEq

/-- Outcome of an awaited network request: success with the response
data, or a thrown error (caught by the handler). -/
inductive Outcome (α : Type) where
  | ok (val : α)
  | err
  deriving Repr

/-- The component state of the App component: the useState hooks of
src/frontend/src/App.tsx. -/
structure AppState where
  ingredients : List Ingredient
  activeTab : String
  loading : Bool
  error : Option String
  recipe : Option Recipe
  servings : Nat
  newIngredient : NewIngredient
  deriving Repr, DecidableEq

/-- The enumerated unit set offered by the unit selector
(const units in src/frontend/src/App.tsx, line 44). -/
def units : List String := ["pieces", "ml", "g", "kg", "tbsp", "tsp", "cup"]

/-- The serving counts offered by the servings selector
(the option list [2, 4, 6, 8] in src/frontend/src/App.tsx, line 300). -/
def servingsOptions : List Nat := [2, 4, 6, 8]

/-- Whitespace as recognised by the JavaScript String.prototype.trim:
space, tab, line terminators, vertical tab, form feed, no-break space,
byte order mark. -/
def isJsWhitespace (c : Char) : Bool :=
  c = ' ' || c = '\t' || c = '\n' || c = '\r' || c = '\x0b' ||
  c = '\x0c' || c = '\u00A0' || c = '\uFEFF'

/-- JavaScript String.prototype.trim: drop leading and trailing
whitespace. -/
def jsTrim (s : String) : String :=
  String.mk (((s.data.dropWhile isJsWhitespace).reverse.dropWhile isJsWhitespace).reverse)

/-- The quantity computed by handleQuantityChange
(src/frontend/src/App.tsx, lines 69-71): increment adds 1, decrement
subtracts 1 clamped below at 0.1. -/
def newQuantityOf (increment : Bool) (q : Rat) : Rat :=
  if increment then q + 1 else max 0.1 (q - 1)

/-- fetchIngredients (src/frontend/src/App.tsx, lines 51-63): GET the
full list; on success replace the local view entirely; on failure set
an error message; loading is cleared either way. -/
def fetchIngredients (s : AppState) (resp : Outcome (List Ingredient)) :
    AppState × List Request :=
  match resp with
  | .ok data =>
      ({ s with ingredients := data, error := none, loading := false },
       [Request.getIngredients])
  | .err =>
      ({ s with error := some "Failed to load ingredients. Please try again.",
                loading := false },
       [Request.getIngredients])

/-- handleQuantityChange (src/frontend/src/App.tsx, lines 65-86): find
the ingredient by id (returning early when absent), compute the new
quantity, PUT it, and only on success replace the record in place. -/
def handleQuantityChange (s : AppState) (id : Nat) (increment : Bool)
    (resp : Outcome Unit) : AppState × List Request :=
  match s.ingredients.find? (fun ing => ing.id == id) with
  | none => (s, [])
  | some ingredient =>
      let newQuantity := newQuantityOf increment ingredient.quantity
      match resp with
      | .ok _ =>
          ({ s with ingredients := s.ingredients.map (fun ing =>
                if ing.id == id then { ing with quantity := newQuantity } else ing) },
           [Request.putIngredient id (UpdateBody.quantity newQuantity)])
      | .err =>
          ({ s with error := some "Failed to update quantity. Please try again." },
           [Request.putIngredient id (UpdateBody.quantity newQuantity)])

/-- handleUnitChange (src/frontend/src/App.tsx, lines 88-102): PUT the
new unit unconditionally (the handler performs no validation of the
unit string), and only on success replace the record in place. -/
def handleUnitChange (s : AppState) (id : Nat) (newUnit : String)
    (resp : Outcome Unit) : AppState × List Request :=
  match resp with
  | .ok _ =>
      ({ s with ingredients := s.ingredients.map (fun ing =>
            if ing.id == id then { ing with unit := newUnit } else ing) },
       [Request.putIngredient id (UpdateBody.unit newUnit)])
  | .err =>
      ({ s with error := some "Failed to update unit. Please try again." },
       [Request.putIngredient id (UpdateBody.unit newUnit)])

/-- handleDelete (src/frontend/src/App.tsx, lines 104-114): DELETE the
id; on success drop the record from the local view; on failure set an
error message. -/
def handleDelete (s : AppState) (id : Nat) (resp : Outcome Unit) :
    AppState × List Request :=
  match resp with
  | .ok _ =>
      ({ s with ingredients := s.ingredients.filter (fun ing => ing.id != id) },
       [Request.deleteIngredient id])
  | .err =>
      ({ s with error := some "Failed to delete ingredient. Please try again." },
       [Request.deleteIngredient id])

/-- handleAddIngredient (src/frontend/src/App.tsx, lines 116-131):
return early with no request when the trimmed name is empty; otherwise
POST the form; on success append the server-returned record and reset
the form to its defaults; on failure set an error message. -/
def handleAddIngredient (s : AppState) (resp : Outcome Ingredient) :
    AppState × List Request :=
  if (jsTrim s.newIngredient.name).isEmpty then (s, [])
  else
    match resp with
    | .ok data =>
        ({ s with ingredients := s.ingredients ++ [data],
                  newIngredient := { name := "", quantity := 1, unit := "pieces" } },
         [Request.postIngredient s.newIngredient])
    | .err =>
        ({ s with error := some "Failed to add ingredient. Please try again." },
         [Request.postIngredient s.newIngredient])

/-- handleGetRecipe (src/frontend/src/App.tsx, lines 133-146): POST a
suggestion request carrying the current servings state; on success
store the recipe and switch tabs; on failure set an error message. -/
def handleGetRecipe (s : AppState) (resp : Outcome Recipe) :
    AppState × List Request :=
  match resp with
  | .ok data =>
      ({ s with recipe := some data, activeTab := "suggestions",
                error := none, loading := false },
       [Request.postSuggest s.servings])
  | .err =>
      ({ s with error := some "Failed to get recipe suggestions. Please try again.",
                loading := false },
       [Request.postSuggest s.servings])

/-- The initial component state: the useState initialisers of
src/frontend/src/App.tsx, lines 31-42. -/
def initialState : AppState :=
  { ingredients := []
    activeTab := "inventory"
    loading := false
    error := none
    recipe := none
    servings := 2
    newIngredient := { name := "", quantity := 1, unit := "pieces" } }

/-- A user-interface event of the App component. Selector events carry
an index into the rendered option list, because the select elements
offer exactly those options. -/
inductive Event where
  | mountFetch (resp : Outcome (List Ingredient))
  | inventoryTab
  | suggestionsTab
  | quantityClick (id : Nat) (increment : Bool) (resp : Outcome Unit)
  | unitSelect (id : Nat) (choice : Fin units.length) (resp : Outcome Unit)
  | deleteClick (id : Nat) (resp : Outcome Unit)
  | nameInput (value : String)
  | addClick (resp : Outcome Ingredient)
  | servingsSelect (choice : Fin servingsOptions.length)
  | recipeClick (resp : Outcome Recipe)

/-- One step of the App component: dispatch a user-interface event to
its handler, returning the new state and the requests issued. -/
def step (s : AppState) (e : Event) : AppState × List Request :=
  match e with
  | .mountFetch resp => fetchIngredients s resp
  | .inventoryTab => ({ s with activeTab := "inventory" }, [])
  | .suggestionsTab => ({ s with activeTab := "suggestions" }, [])
  | .quantityClick id increment resp => handleQuantityChange s id increment resp
  | .unitSelect id choice resp => handleUnitChange s id (units.get choice) resp
  | .deleteClick id resp => handleDelete s id resp
  | .nameInput value =>
      ({ s with newIngredient := { s.newIngredient with name := value } }, [])
  | .addClick resp => handleAddIngredient s resp
  | .servingsSelect choice =>
      ({ s with servings := servingsOptions.get choice }, [])
  | .recipeClick resp => handleGetRecipe s resp

/-- The states the App component can reach from its initial state
under any sequence of user-interface events and network outcomes. -/
inductive Reachable : AppState → Prop where
  | init : Reachable initialState
  | next (s : AppState) (e : Event) : Reachable s → Reachable (step s e).1

/-- Lower-case a string character by character (the case folding used
by the suggestion service's name matching). -/
def lowerStr (s : String) : String :=
  String.mk (s.data.map Char.toLower)

/-- Whether the first character list occurs contiguously inside the
second. -/
def isSubstrList (needle hay : List Char) : Bool :=
  match hay with
  | [] => needle.isEmpty
  | _ :: t => needle.isPrefixOf hay || isSubstrList needle t

/-- Modelled from the spec: the name matching of the Recipe Suggestion
Service (the FastAPI backend is not under src/). A required-ingredient
name matches an inventory item when, after lower-casing, either name
occurs as a substring of the other (case-insensitive,
substring-tolerant). -/
def nameMatched (required inventoryName : String) : Bool :=
  isSubstrList (lowerStr inventoryName).data (lowerStr required).data ||
  isSubstrList (lowerStr required).data (lowerStr inventoryName).data

/-- Modelled from the spec: missingIngredients are the ingredients the
model lists under required that are not name-matched against the
current inventory. -/
def deriveMissing (inventory : List Ingredient) (required : List String) :
    List String :=
  required.filter (fun r => !(inventory.any (fun ing => nameMatched r ing.name)))

/-- The fields of the external AI model's parsed output consumed by
the suggestion service. -/
structure ModelOutput where
  recipe_name : String
  required : List String
  instructions : List String
  difficulty_level : String
  cooking_time : String
  deriving Repr, DecidableEq

/-- Modelled from the spec: the Recipe Suggestion Service (spec
section 4.3; its backend implementation is not under src/). Given the
inventory, the requested serving count and the parsed model output, it
normalises the model output into the RecipeSuggestion shape, deriving
missingIngredients from the required list against the inventory. -/
def suggest (inventory : List Ingredient) (servings : Nat)
    (model : ModelOutput) : Recipe :=
  { recipe_name := model.recipe_name
    ingredients_required := model.required
    missing_ingredients := deriveMissing inventory model.required
    instructions := model.instructions
    difficulty_level := model.difficulty_level
    cooking_time := model.cooking_time
    servings := servings }

/-- The scenario ingredient of the spec: an egg at quantity 2 in
pieces. -/
def eggIngredient : Ingredient :=
  { id := 1, name := "egg", quantity := 2, unit := "pieces",
    created_at := "", updated_at := "" }

/-- A state whose local view holds the scenario inventory. -/
def sampleState : AppState := { initialState with ingredients := [eggIngredient] }

/-- A state with the scenario inventory and a non-empty pending form
name. -/
def formState : AppState :=
  { initialState with
      ingredients := [eggIngredient]
      newIngredient := { name := "flour", quantity := 1, unit := "pieces" } }

/-- A state whose pending form name is whitespace only. -/
def blankFormState : AppState :=
  { initialState with
      newIngredient := { name := "   ", quantity := 1, unit := "pieces" } }

/-- C1: for an ingredient present in the local view (hence with the
data-model invariant 0 < quantity) and either delta, the quantity the
handler computes and stores is max(0.1, current + delta); decrementing
from quantity 1 yields exactly 0.1, and the result is never below
0.1. -/
theorem adjustQuantity_clamps_at_floor (s : AppState) (id : Nat)
    (increment : Bool) (ing : Ingredient)
    (hfind : s.ingredients.find? (fun i => i.id == id) = some ing)
    (hpos : 0 < ing.quantity) :
    newQuantityOf increment ing.quantity =
      max 0.1 (ing.quantity + (if increment then (1 : Rat) else -1)) ∧
    (0.1 : Rat) ≤ newQuantityOf increment ing.quantity ∧
    (handleQuantityChange s id increment (.ok ())).1.ingredients =
      s.ingredients.map (fun i => if i.id == id
        then { i with quantity := max 0.1 (ing.quantity + (if increment then (1 : Rat) else -1)) }
        else i) ∧
    newQuantityOf false 1 = 0.1 := by
  have hq : newQuantityOf increment ing.quantity =
      max 0.1 (ing.quantity + (if increment then (1 : Rat) else -1)) := by
    cases increment with
    | false => simp [newQuantityOf, sub_eq_add_neg]
    | true =>
        simp only [newQuantityOf, if_true]
        rw [max_eq_right]
        linarith
  refine ⟨hq, ?_, ?_, ?_⟩
  · rw [hq]; exact le_max_left _ _
  · simp only [handleQuantityChange, hfind, ← hq]
  · norm_num [newQuantityOf]

/-- Witness for C1: the clamp theorem applied to the scenario
inventory, decrementing the egg at quantity 2. -/
theorem adjustQuantity_clamps_at_floor_witness :
    sampleState.ingredients.find? (fun i => i.id == 1) = some eggIngredient ∧
    (0 : Rat) < eggIngredient.quantity ∧
    (newQuantityOf false eggIngredient.quantity =
        max 0.1 (eggIngredient.quantity + (if false then (1 : Rat) else -1)) ∧
      (0.1 : Rat) ≤ newQuantityOf false eggIngredient.quantity ∧
      (handleQuantityChange sampleState 1 false (.ok ())).1.ingredients =
        sampleState.ingredients.map (fun i => if i.id == 1
          then { i with quantity := max 0.1 (eggIngredient.quantity + (if false then (1 : Rat) else -1)) }
          else i) ∧
      newQuantityOf false 1 = 0.1) :=
  ⟨rfl, by norm_num [eggIngredient],
    adjustQuantity_clamps_at_floor sampleState 1 false eggIngredient rfl
      (by norm_num [eggIngredient])⟩

/-- C3: an add request whose name trims to empty issues no network
call and leaves the entire state, local list and pending form fields
included, unchanged. -/
theorem add_empty_name_is_noop (s : AppState) (resp : Outcome Ingredient)
    (h : (jsTrim s.newIngredient.name).isEmpty = true) :
    handleAddIngredient s resp = (s, []) := by
  simp [handleAddIngredient, h]

/-- Witness for C3: adding with the whitespace-only name of
blankFormState is a no-op. -/
theorem add_empty_name_is_noop_witness :
    (jsTrim blankFormState.newIngredient.name).isEmpty = true ∧
    handleAddIngredient blankFormState .err = (blankFormState, []) :=
  ⟨rfl, add_empty_name_is_noop blankFormState .err rfl⟩

/-- C10: a quantity adjustment for an id absent from the local view
returns early: no request is issued and the state, error field
included, is unchanged. -/
theorem adjustQuantity_missing_id_noop (s : AppState) (id : Nat)
    (increment : Bool) (resp : Outcome Unit)
    (h : ∀ ing ∈ s.ingredients, ing.id ≠ id) :
    handleQuantityChange s id increment resp = (s, []) := by
  have hfind : s.ingredients.find? (fun i => i.id == id) = none := by
    rw [List.find?_eq_none]
    intro x hx
    simpa using h x hx
  simp [handleQuantityChange, hfind]

/-- Witness for C10: adjusting id 99, absent from the scenario
inventory, is a no-op. -/
theorem adjustQuantity_missing_id_noop_witness :
    (∀ ing ∈ sampleState.ingredients, ing.id ≠ 99) ∧
    handleQuantityChange sampleState 99 true .err = (sampleState, []) :=
  ⟨by decide, adjustQuantity_missing_id_noop sampleState 99 true .err (by decide)⟩

/-- C2: when the network request of any inventory operation fails
(refresh, quantity adjust, unit change, delete, add), the local
ingredient list is exactly its pre-request value and an error message
is surfaced; the list is replaced only on success. The quantity-adjust
and add cases are taken at states where those handlers actually issue
a request (id present, non-empty trimmed name). -/
theorem failure_leaves_prior_state (s : AppState) (id : Nat)
    (increment : Bool) (u : String)
    (hq : (s.ingredients.find? (fun i => i.id == id)).isSome = true)
    (hn : (jsTrim s.newIngredient.name).isEmpty = false) :
    ((fetchIngredients s .err).1.ingredients = s.ingredients ∧
      (fetchIngredients s .err).1.error.isSome = true) ∧
    ((handleQuantityChange s id increment .err).1.ingredients = s.ingredients ∧
      (handleQuantityChange s id increment .err).1.error.isSome = true) ∧
    ((handleUnitChange s id u .err).1.ingredients = s.ingredients ∧
      (handleUnitChange s id u .err).1.error.isSome = true) ∧
    ((handleDelete s id .err).1.ingredients = s.ingredients ∧
      (handleDelete s id .err).1.error.isSome = true) ∧
    ((handleAddIngredient s .err).1.ingredients = s.ingredients ∧
      (handleAddIngredient s .err).1.error.isSome = true) := by
  obtain ⟨ing, hing⟩ := Option.isSome_iff_exists.mp hq
  refine ⟨⟨rfl, rfl⟩, ?_, ⟨rfl, rfl⟩, ⟨rfl, rfl⟩, ?_⟩
  · simp [handleQuantityChange, hing]
  · simp [handleAddIngredient, hn]

/-- Witness for C2: the failure-preservation theorem applied to the
scenario state with the egg present and the pending name flour. -/
theorem failure_leaves_prior_state_witness :
    (formState.ingredients.find? (fun i => i.id == 1)).isSome = true ∧
    (jsTrim formState.newIngredient.name).isEmpty = false ∧
    (((fetchIngredients formState .err).1.ingredients = formState.ingredients ∧
        (fetchIngredients formState .err).1.error.isSome = true) ∧
      ((handleQuantityChange formState 1 false .err).1.ingredients = formState.ingredients ∧
        (handleQuantityChange formState 1 false .err).1.error.isSome = true) ∧
      ((handleUnitChange formState 1 "ml" .err).1.ingredients = formState.ingredients ∧
        (handleUnitChange formState 1 "ml" .err).1.error.isSome = true) ∧
      ((handleDelete formState 1 .err).1.ingredients = formState.ingredients ∧
        (handleDelete formState 1 .err).1.error.isSome = true) ∧
      ((handleAddIngredient formState .err).1.ingredients = formState.ingredients ∧
        (handleAddIngredient formState .err).1.error.isSome = true)) :=
  ⟨rfl, rfl, failure_leaves_prior_state formState 1 false "ml" rfl rfl⟩

/-- C4 counterexample: handleUnitChange performs no unit validation,
so the out-of-enum unit "bogus" is not rejected: an update request
carrying it is issued and, on success, it is stored in the local
view. -/
theorem unitChange_not_rejected_counterexample :
    "bogus" ∉ units ∧
    (handleUnitChange sampleState 1 "bogus" (.ok ())).2 ≠ [] ∧
    (handleUnitChange sampleState 1 "bogus" (.ok ())).2 =
      [Request.putIngredient 1 (UpdateBody.unit "bogus")] ∧
    (handleUnitChange sampleState 1 "bogus" (.ok ())).1.ingredients =
      [{ eggIngredient with unit := "bogus" }] :=
  ⟨by decide, by decide, rfl, rfl⟩

/-- C4 amended: handleUnitChange issues exactly one update request
carrying whatever unit string it is given, performing no enum
validation; out-of-enum units are excluded only in that every
unit-change event originating from the UI's unit selector carries one
of the enumerated units. -/
theorem unitChange_requests (s : AppState) (id : Nat) (u : String)
    (resp : Outcome Unit) (choice : Fin units.length) :
    (handleUnitChange s id u resp).2 =
      [Request.putIngredient id (UpdateBody.unit u)] ∧
    units.get choice ∈ units ∧
    (step s (.unitSelect id choice resp)).2 =
      [Request.putIngredient id (UpdateBody.unit (units.get choice))] := by
  refine ⟨?_, List.get_mem units choice.1 choice.2, ?_⟩ <;>
    cases resp <;> rfl

/-- C5: a successful delete removes exactly the records with the
requested id: the result is the filtered list, the id is absent from
it, and every record with a different id survives unchanged; on
failure the list is untouched and an error is surfaced. -/
theorem remove_deletes_exactly (s : AppState) (id : Nat)
    (hmem : ∃ ing ∈ s.ingredients, ing.id = id) :
    (handleDelete s id (.ok ())).1.ingredients =
      s.ingredients.filter (fun ing => ing.id != id) ∧
    (∀ ing ∈ (handleDelete s id (.ok ())).1.ingredients, ing.id ≠ id) ∧
    (∀ ing ∈ s.ingredients, ing.id ≠ id →
      ing ∈ (handleDelete s id (.ok ())).1.ingredients) ∧
    (handleDelete s id .err).1.ingredients = s.ingredients ∧
    (handleDelete s id .err).1.error.isSome = true := by
  refine ⟨rfl, ?_, ?_, rfl, rfl⟩
  · intro ing hing
    have := (List.mem_filter.mp hing).2
    simpa using this
  · intro ing hing hne
    exact List.mem_filter.mpr ⟨hing, by simpa using hne⟩

/-- Witness for C5: deleting the egg from the scenario inventory. -/
theorem remove_deletes_exactly_witness :
    (∃ ing ∈ sampleState.ingredients, ing.id = 1) ∧
    ((handleDelete sampleState 1 (.ok ())).1.ingredients =
        sampleState.ingredients.filter (fun ing => ing.id != 1) ∧
      (∀ ing ∈ (handleDelete sampleState 1 (.ok ())).1.ingredients, ing.id ≠ 1) ∧
      (∀ ing ∈ sampleState.ingredients, ing.id ≠ 1 →
        ing ∈ (handleDelete sampleState 1 (.ok ())).1.ingredients) ∧
      (handleDelete sampleState 1 .err).1.ingredients = sampleState.ingredients ∧
      (handleDelete sampleState 1 .err).1.error.isSome = true) :=
  ⟨⟨eggIngredient, by decide, rfl⟩,
    remove_deletes_exactly sampleState 1 ⟨eggIngredient, by decide, rfl⟩⟩

/-- C6: a successful add with a non-empty trimmed name appends the
server-returned record at the end of the local view and resets the
pending form fields to their defaults. -/
theorem add_success_appends_and_resets (s : AppState) (data : Ingredient)
    (h : (jsTrim s.newIngredient.name).isEmpty = false) :
    (handleAddIngredient s (.ok data)).1.ingredients = s.ingredients ++ [data] ∧
    (handleAddIngredient s (.ok data)).1.newIngredient =
      { name := "", quantity := 1, unit := "pieces" } := by
  constructor <;> simp [handleAddIngredient, h]

/-- Witness for C6: adding flour to the scenario state appends the
server record and resets the form. -/
theorem add_success_appends_and_resets_witness :
    (jsTrim formState.newIngredient.name).isEmpty = false ∧
    ((handleAddIngredient formState (.ok eggIngredient)).1.ingredients =
        formState.ingredients ++ [eggIngredient] ∧
      (handleAddIngredient formState (.ok eggIngredient)).1.newIngredient =
        { name := "", quantity := 1, unit := "pieces" }) :=
  ⟨rfl, add_success_appends_and_resets formState eggIngredient rfl⟩

/-- Projecting ids commutes with mapping an id-preserving function
over the list. -/
theorem map_id_proj_eq (l : List Ingredient) (f : Ingredient → Ingredient)
    (hf : ∀ i, (f i).id = i.id) :
    (l.map f).map (fun i => i.id) = l.map (fun i => i.id) := by
  induction l with
  | nil => rfl
  | cons a t ih => simp [hf a, ih]

/-- C7: every operation preserves insertion order of the local view:
quantity and unit updates keep the id sequence unchanged (in-place
replacement, no reordering), a successful add appends at the end, and
a successful delete yields a sublist of the prior view (relative order
of survivors preserved). -/
theorem operations_preserve_order (s : AppState) (id : Nat)
    (increment : Bool) (u : String) (data : Ingredient)
    (h : (jsTrim s.newIngredient.name).isEmpty = false) :
    (handleQuantityChange s id increment (.ok ())).1.ingredients.map (fun i => i.id) =
      s.ingredients.map (fun i => i.id) ∧
    (handleUnitChange s id u (.ok ())).1.ingredients.map (fun i => i.id) =
      s.ingredients.map (fun i => i.id) ∧
    (handleAddIngredient s (.ok data)).1.ingredients = s.ingredients ++ [data] ∧
    (handleDelete s id (.ok ())).1.ingredients.Sublist s.ingredients := by
  refine ⟨?_, ?_, ?_, ?_⟩
  · cases hfind : s.ingredients.find? (fun i => i.id == id) with
    | none => simp [handleQuantityChange, hfind]
    | some ing =>
        simp only [handleQuantityChange, hfind]
        exact map_id_proj_eq _ _ (fun i => by by_cases hc : (i.id == id) = true <;> simp [hc])
  · simp only [handleUnitChange]
    exact map_id_proj_eq _ _ (fun i => by by_cases hc : (i.id == id) = true <;> simp [hc])
  · simp [handleAddIngredient, h]
  · simp only [handleDelete]
    exact List.filter_sublist _

/-- Witness for C7: order preservation at the scenario state with the
egg present and the pending name flour. -/
theorem operations_preserve_order_witness :
    (jsTrim formState.newIngredient.name).isEmpty = false ∧
    ((handleQuantityChange formState 1 false (.ok ())).1.ingredients.map (fun i => i.id) =
        formState.ingredients.map (fun i => i.id) ∧
      (handleUnitChange formState 1 "ml" (.ok ())).1.ingredients.map (fun i => i.id) =
        formState.ingredients.map (fun i => i.id) ∧
      (handleAddIngredient formState (.ok eggIngredient)).1.ingredients =
        formState.ingredients ++ [eggIngredient] ∧
      (handleDelete formState 1 (.ok ())).1.ingredients.Sublist formState.ingredients) :=
  ⟨rfl, operations_preserve_order formState 1 false "ml" eggIngredient rfl⟩

/-- Every step either leaves the servings state unchanged or sets it
to one of the rendered serving options. -/
theorem step_servings_cases (s : AppState) (e : Event) :
    (step s e).1.servings = s.servings ∨
    (step s e).1.servings ∈ servingsOptions := by
  cases e with
  | mountFetch resp => cases resp <;> exact Or.inl rfl
  | inventoryTab => exact Or.inl rfl
  | suggestionsTab => exact Or.inl rfl
  | quantityClick id increment resp =>
      left
      cases hfind : s.ingredients.find? (fun i => i.id == id) with
      | none => simp [step, handleQuantityChange, hfind]
      | some ing => cases resp <;> simp [step, handleQuantityChange, hfind]
  | unitSelect id choice resp => cases resp <;> exact Or.inl rfl
  | deleteClick id resp => cases resp <;> exact Or.inl rfl
  | nameInput v => exact Or.inl rfl
  | addClick resp =>
      left
      by_cases hn : (jsTrim s.newIngredient.name).isEmpty = true
      · simp [step, handleAddIngredient, hn]
      · cases resp <;> simp [step, handleAddIngredient, hn]
  | servingsSelect choice => exact Or.inr (List.get_mem _ _ _)
  | recipeClick resp => cases resp <;> exact Or.inl rfl

/-- A suggestion request issued by any step carries exactly the
current servings state. -/
theorem step_suggest_request (s : AppState) (e : Event) (n : Nat)
    (h : Request.postSuggest n ∈ (step s e).2) : n = s.servings := by
  cases e with
  | mountFetch resp => cases resp <;> simp [step, fetchIngredients] at h
  | inventoryTab => simp [step] at h
  | suggestionsTab => simp [step] at h
  | quantityClick id increment resp =>
      cases hfind : s.ingredients.find? (fun i => i.id == id) with
      | none => simp [step, handleQuantityChange, hfind] at h
      | some ing => cases resp <;> simp [step, handleQuantityChange, hfind] at h
  | unitSelect id choice resp => cases resp <;> simp [step, handleUnitChange] at h
  | deleteClick id resp => cases resp <;> simp [step, handleDelete] at h
  | nameInput v => simp [step] at h
  | addClick resp =>
      by_cases hn : (jsTrim s.newIngredient.name).isEmpty = true
      · simp [step, handleAddIngredient, hn] at h
      · cases resp <;> simp [step, handleAddIngredient, hn] at h
  | servingsSelect choice => simp [step] at h
  | recipeClick resp => cases resp <;> simpa [step, handleGetRecipe] using h

/-- C8: the servings state starts at 2, every reachable state keeps it
inside the enumerated set, and a suggestion request issued from a
reachable state always carries one of the enumerated serving
counts. -/
theorem servings_always_enumerated :
    initialState.servings = 2 ∧
    (∀ s, Reachable s → s.servings ∈ servingsOptions) ∧
    (∀ s e n, Reachable s → Request.postSuggest n ∈ (step s e).2 →
      n ∈ servingsOptions) := by
  have hinv : ∀ s, Reachable s → s.servings ∈ servingsOptions := by
    intro s hs
    induction hs with
    | init => decide
    | next s e hs ih =>
        cases step_servings_cases s e with
        | inl heq => rw [heq]; exact ih
        | inr hmem => exact hmem
  refine ⟨rfl, hinv, ?_⟩
  intro s e n hs hn
  rw [step_suggest_request s e n hn]
  exact hinv s hs

/-- Witness for C8: the invariant evaluated at the initial state and
at a concrete suggestion request issued from it. -/
theorem servings_always_enumerated_witness :
    Reachable initialState ∧
    initialState.servings ∈ servingsOptions ∧
    (2 : Nat) ∈ servingsOptions :=
  ⟨Reachable.init,
    servings_always_enumerated.2.1 initialState Reachable.init,
    servings_always_enumerated.2.2 initialState (.recipeClick .err) 2
      Reachable.init (by decide)⟩

/-- A parsed model output for the scenario: an omelette requiring egg
and flour. -/
def eggModel : ModelOutput :=
  { recipe_name := "Omelette", required := ["egg", "flour"],
    instructions := ["Beat the egg.", "Fry until set."],
    difficulty_level := "easy", cooking_time := "10" }

/-- C9: no entry of the derived missingIngredients is name-matched
(case-insensitive, substring-tolerant) against any inventory item; in
the scenario with the egg inventory, the missing list excludes
"egg". -/
theorem suggest_missing_excludes_inventory (inventory : List Ingredient)
    (servings : Nat) (model : ModelOutput) :
    (∀ m ∈ (suggest inventory servings model).missing_ingredients,
      ∀ ing ∈ inventory, nameMatched m ing.name = false) ∧
    "egg" ∉ (suggest [eggIngredient] 2 eggModel).missing_ingredients := by
  constructor
  · intro m hm ing hing
    have h := (List.mem_filter.mp hm).2
    have h' : inventory.any (fun ing => nameMatched m ing.name) = false := by
      simpa using h
    have := List.any_eq_false.mp h' ing hing
    simpa using this
  · decide

/-- Witness for C9: in the scenario, "flour" is the only missing
ingredient and it is not name-matched against the egg. -/
theorem suggest_missing_excludes_inventory_witness :
    "flour" ∈ (suggest [eggIngredient] 2 eggModel).missing_ingredients ∧
    eggIngredient ∈ [eggIngredient] ∧
    nameMatched "flour" eggIngredient.name = false :=
  ⟨by decide, by decide,
    (suggest_missing_excludes_inventory [eggIngredient] 2 eggModel).1 "flour"
      (by decide) eggIngredient (by decide)⟩

end ChefBot
